import Mathlib

/-
Verification development for the single-threaded scraping job
(`src/single_threading-Code/scraper.py`, active code lines 525-988).

The embedding models the job-control and progress-persistence engine:
the retry policy (`process_cid`), the worker loop (`scraping_worker`),
the durable-store writes (`save_data`, split here into the tabular part
`save_data_rows` and the failed-set part `save_failed`), the reload of
prior results (`reload_output`, from the startup section of
`scraping_worker`), and the Flask control surface
(`start_scraping_api`, `scraping_status_api`, route dispatch).

Machine-level details that the claims do not touch (logging, timing,
browser internals) are elided; everything the claims mention is
translated from the source.
-/

namespace Scraper

/- Configuration constants (scraper.py lines 563-566). -/

def MAX_RETRIES : Nat := 3

def RETRY_DELAY : Nat := 10

def PAGE_LOAD_TIMEOUT : Nat := 30

def CAPTCHA_RETRY_DELAY : Nat := 5

/- Cell values: pandas cells hold either a month label (string) or a
numeric amount.  Amounts are modelled as integers; the claims never
depend on fractional values. -/

inductive Val where
  | str (s : String)
  | num (n : Int)
deriving DecidableEq

/- A Python dict mapping month label to amount, in insertion order
(the `cid_data` built by `process_cid`, lines 789-806). -/

abbrev ItemData := List (String × Val)

/- Python dict assignment `d[k] = v`: replace in place if the key is
present, else append. -/

def aset {α : Type} : List (String × α) → String → α → List (String × α)
  | [], k, v => [(k, v)]
  | (k', v') :: t, k, v => if k' == k then (k, v) :: t else (k', v') :: aset t k v

/- Python `k in d` for a dict. -/

def hasKey {α : Type} : List (String × α) → String → Bool
  | [], _ => false
  | (k', _) :: t, k => k' == k || hasKey t k

/- Python `d[k]` with a default for a missing key. -/

def getKey {α : Type} (dflt : α) : List (String × α) → String → α
  | [], _ => dflt
  | (k', v) :: t, k => if k' == k then v else getKey dflt t k

theorem hasKey_aset {α : Type} (d : List (String × α)) (k c : String) (v : α) :
    hasKey (aset d k v) c = (k == c || hasKey d c) := by
  induction d with
  | nil => simp [aset, hasKey]
  | cons p t ih =>
    obtain ⟨k', v'⟩ := p
    by_cases h : k' = k
    · subst h
      simp only [aset, beq_self_eq_true, if_pos, hasKey]
      cases hkc : (k' == c) <;> simp [hkc, hasKey]
    · have hb : (k' == k) = false := by simp [h]
      simp only [aset, hb, Bool.false_eq_true, if_neg, hasKey, ih]
      cases hkc : (k' == c) <;> cases hkk : (k == c) <;> simp [hkc, hkk]

/-
Retry Policy: `process_cid` (scraper.py lines 739-816).

One attempt is the whole browser interaction for one CID; the embedding
abstracts it as an oracle `att : Nat → Attempt` giving the outcome of
the k-th attempt (k = value of `retries` on entry to the loop body).
The Python loop is

    retries = 0
    while retries < MAX_RETRIES:
        try: ...; return cid_data
        except Exception as e:
            retries += 1
            if retries < MAX_RETRIES: time.sleep(CAPTCHA_RETRY_DELAY)
            else: raise e

`process_cidGo att r fuel sleeps` models the loop with `fuel` standing
for `MAX_RETRIES - r`, so the `while` guard `retries < MAX_RETRIES` is
`fuel > 0`, and the inner `retries < MAX_RETRIES` test after the
increment is `fuel - 1 > 0`.  `sleeps` records the argument of every
`time.sleep` between attempts, in order.
-/

inductive Attempt where
  | ok (d : ItemData)
  | fail (e : String)

inductive PCResult where
  | ok (d : ItemData)
  | raised (e : String)
  | fellThrough
deriving DecidableEq

structure PCRun where
  result : PCResult
  sleeps : List Nat
deriving DecidableEq

def process_cidGo (att : Nat → Attempt) : Nat → Nat → List Nat → PCRun
  | _, 0, sleeps => ⟨PCResult.fellThrough, sleeps⟩
  | r, fuel + 1, sleeps =>
    match att r with
    | Attempt.ok d => ⟨PCResult.ok d, sleeps⟩
    | Attempt.fail e =>
      if fuel > 0 then
        process_cidGo att (r + 1) fuel (sleeps ++ [CAPTCHA_RETRY_DELAY])
      else ⟨PCResult.raised e, sleeps⟩

def process_cid (att : Nat → Attempt) : PCRun :=
  process_cidGo att 0 MAX_RETRIES []

/-
Job Runner: `scraping_worker` (scraper.py lines 818-928).

The outcome of the `process_cid` call made at loop index `i` is given
by an oracle.  `fatal` models an exception raised in the loop body that
escapes the per-item `try/except Exception` at lines 879-888 (for
example an exception of a kind Python's `except Exception` does not
catch during the in-flight fetch): it leaves the `for` loop and lands
in the outer `except` at line 923.
-/

inductive FetchOutcome where
  | success (d : ItemData)
  | failure
  | fatal

/- The mutable state of one run of `scraping_worker`, plus the traces
the claims talk about:
  `out`             = `output_data` (dict cid -> dict month -> amount)
  `failed`          = `not_scraped` (set of failed cids; list, member-unique)
  `succ`, `failcnt` = `success_count`, `failed_count`
  `lastProc`        = `status["last_processed"]` currently in memory
  `statusTrace`     = the `last_processed` value of every `save_status`
                      call, in order (the persisted checkpoint history)
  `fetchTrace`      = the cids passed to `process_cid`, in order
  `periodicFlushes` = number of periodic `save_data` calls (line 899). -/

structure WState where
  out : List (String × ItemData)
  failed : List String
  succ : Nat
  failcnt : Nat
  lastProc : Nat
  statusTrace : List Nat
  fetchTrace : List String
  periodicFlushes : Nat
deriving DecidableEq

inductive LoopExit where
  | natural
  | stopped
  | fatalExit
deriving DecidableEq

/- The skip test at line 874: `cid in output_data or cid in not_scraped`. -/

def memState (s : WState) (c : String) : Bool :=
  hasKey s.out c || s.failed.contains c

/- Lines 880-883: record a success. -/

def recordSuccess (s : WState) (cid : String) (d : ItemData) : WState :=
  { s with out := aset s.out cid d, succ := s.succ + 1,
           fetchTrace := s.fetchTrace ++ [cid] }

/- Lines 885-888: record a terminal failure. -/

def recordFailure (s : WState) (cid : String) : WState :=
  { s with failed := s.failed ++ [cid], failcnt := s.failcnt + 1,
           fetchTrace := s.fetchTrace ++ [cid] }

/- Lines 890-901: update and persist the status record, then the
periodic `save_data` every 10 items. -/

def persistStep (i : Nat) (s : WState) : WState :=
  let s' := { s with lastProc := i + 1, statusTrace := s.statusTrace ++ [i + 1] }
  if (i + 1) % 10 == 0 then { s' with periodicFlushes := s'.periodicFlushes + 1 } else s'

/- The `for index in range(start_index, total)` loop (lines 862-901).
`fuel` stands for `total - i`.  The stop and pause flags are shared
with the control thread; their values as observed at the top of
iteration `i` are modelled by the predicates `stopAt` / `pauseStop`
(`pauseStop i = true` means `check_pause()` returned `True`, i.e. the
stop flag was set while paused). -/

def workerLoop (oracle : Nat → FetchOutcome) (stopAt pauseStop : Nat → Bool)
    (cids : List String) : Nat → Nat → WState → WState × LoopExit
  | _, 0, s => (s, LoopExit.natural)
  | i, fuel + 1, s =>
    if stopAt i then (s, LoopExit.stopped)
    else if pauseStop i then (s, LoopExit.stopped)
    else
      let cid := cids.getD i ""
      if memState s cid then
        workerLoop oracle stopAt pauseStop cids (i + 1) fuel s
      else
        match oracle i with
        | FetchOutcome.fatal =>
          ({ s with fetchTrace := s.fetchTrace ++ [cid] }, LoopExit.fatalExit)
        | FetchOutcome.success d =>
          workerLoop oracle stopAt pauseStop cids (i + 1) fuel
            (persistStep i (recordSuccess s cid d))
        | FetchOutcome.failure =>
          workerLoop oracle stopAt pauseStop cids (i + 1) fuel
            (persistStep i (recordFailure s cid))

inductive RunOutcome where
  | completed
  | stoppedRun
  | failedRun
deriving DecidableEq

structure WorkerResult where
  state : WState
  loopExit : LoopExit
  finalFlush : Bool
  browserReleased : Bool
  outcome : RunOutcome
deriving DecidableEq

/- `scraping_worker` after a successful browser start and input load:
build the initial state (lines 834-857), run the loop, then model the
code after the loop.  The final `save_data` (line 904) is inside the
`try`, so it runs only when the loop exits without an escaping
exception; `driver.quit()` (line 927) is in `finally` and runs on every
path.  Line 921 computes `success_count/total*100`: with `total = 0`
this raises `ZeroDivisionError`, which the outer `except` at line 923
catches, so the run ends in the error branch (after the final flush).

Inputs: `out0`/`failed0` are the reconciled `output_data`/`not_scraped`
loaded at startup, `startIdx` = `status["last_processed"]`, `succ0` =
`status["total_processed"]`, and `startTimeSet` tells whether
`status["start_time"]` was already set (if not, line 857 persists the
status once before the loop). -/

def initWState (out0 : List (String × ItemData)) (failed0 : List String)
    (startIdx succ0 : Nat) (startTimeSet : Bool) : WState :=
  { out := out0, failed := failed0, succ := succ0, failcnt := failed0.length,
    lastProc := startIdx,
    statusTrace := if startTimeSet then [] else [startIdx],
    fetchTrace := [], periodicFlushes := 0 }

def scraping_worker (oracle : Nat → FetchOutcome) (stopAt pauseStop : Nat → Bool)
    (cids : List String) (out0 : List (String × ItemData)) (failed0 : List String)
    (startIdx succ0 : Nat) (startTimeSet : Bool) : WorkerResult :=
  let total := cids.length
  let r := workerLoop oracle stopAt pauseStop cids startIdx (total - startIdx)
    (initWState out0 failed0 startIdx succ0 startTimeSet)
  { state := r.1
    loopExit := r.2
    -- line 904 (`save_data` after the loop) executes exactly when control
    -- leaves the loop without an escaping exception
    finalFlush := match r.2 with
      | LoopExit.fatalExit => false
      | _ => true
    -- line 927 (`driver.quit()`) is in `finally`, so it runs on every path
    browserReleased := true
    -- line 921 divides by `total`; with `total = 0` the ZeroDivisionError
    -- lands in the outer `except` (line 923), i.e. the error branch
    outcome := match r.2 with
      | LoopExit.fatalExit => RunOutcome.failedRun
      | LoopExit.stopped =>
        if total = 0 then RunOutcome.failedRun else RunOutcome.stoppedRun
      | LoopExit.natural =>
        if total = 0 then RunOutcome.failedRun else RunOutcome.completed }

/-
Durable stores: the two halves of `save_data` (lines 665-698).
-/

/- Tabular rows written to the output Excel file: one row per
`(CID, Month, Amount)` triple (lines 669-680). -/

structure Row where
  cid : String
  month : String
  amount : Val
deriving DecidableEq

def save_data_rows (out : List (String × ItemData)) : List Row :=
  (out.map (fun p => p.2.map (fun q => Row.mk p.1 q.1 q.2))).flatten

/- Reload of prior results at worker startup (lines 834-844): the saved
Excel file has columns CID, Month, Amount, so for each row the code
iterates the columns other than CID and does
`output_data[cid][col] = row[col]` - i.e. it stores the month label
under the key "Month" and the amount under the key "Amount". -/

def reload_output (rows : List Row) : List (String × ItemData) :=
  rows.foldl
    (fun acc r =>
      let acc' := if hasKey acc r.cid then acc else aset acc r.cid []
      let inner := getKey [] acc' r.cid
      aset acc' r.cid (aset (aset inner "Month" (Val.str r.month)) "Amount" r.amount))
    []

/- Failed-set store (lines 683-695).  The on-disk failed file is
absent (or zero length), readable with contents `s`, or present with
contents `s` but unreadable (`json.load` raises, the `except` at line
690 logs and keeps the in-memory list only). -/

inductive FailedDisk where
  | absent
  | readable (s : List String)
  | corrupt (s : List String)
deriving DecidableEq

/- The identifiers physically on disk. -/

def diskIds : FailedDisk → List String
  | FailedDisk.absent => []
  | FailedDisk.readable s => s
  | FailedDisk.corrupt s => s

/- `list(set(not_scraped).union(existing_failed))`, as a list with the
disk elements not already in memory appended. -/

def unionList (mem disk : List String) : List String :=
  mem ++ disk.filter (fun c => !mem.contains c)

/- The failed-set half of `save_data`: returns the new disk state.
With an empty in-memory set the `if not_scraped:` guard skips the
write entirely; otherwise the file is overwritten, union'd with the
previous contents only when they could be read back. -/

def save_failed (mem : List String) (disk : FailedDisk) : FailedDisk :=
  if mem.isEmpty then disk
  else
    match disk with
    | FailedDisk.readable s => FailedDisk.readable (unionList mem s)
    | FailedDisk.absent => FailedDisk.readable mem
    | FailedDisk.corrupt _ => FailedDisk.readable mem

/-
Control surface: the Flask app (lines 930-981) plus the process-wide
thread state.  `liveWorkers` counts worker threads currently alive;
`threadSpawned` says whether `scraper_thread` is not None.  Under the
reachable states there is at most one live worker and it is the thread
`scraper_thread` refers to, so `scraper_thread.is_alive()` is
`liveWorkers != 0`.
-/

structure CtrlState where
  shouldPause : Bool
  shouldStop : Bool
  threadSpawned : Bool
  liveWorkers : Nat
deriving DecidableEq

structure ApiResponse where
  ok : Bool
  status : String
deriving DecidableEq

/- `start_scraping_api` (lines 931-951): returns the response, the new
control state, and whether a new worker thread was spawned. -/

def start_scraping_api (st : CtrlState) : ApiResponse × CtrlState × Bool :=
  if st.threadSpawned && st.liveWorkers != 0 then
    (⟨false, "error"⟩, st, false)
  else
    (⟨true, "success"⟩,
     { shouldPause := false, shouldStop := false,
       threadSpawned := true, liveWorkers := st.liveWorkers + 1 }, true)

/- `scraping_status_api` (lines 953-981): read-only. -/

def scraping_status_api (st : CtrlState) : ApiResponse :=
  if !st.threadSpawned then ⟨true, "inactive"⟩
  else if st.liveWorkers == 0 then ⟨true, "inactive"⟩
  else if st.shouldPause then ⟨true, "paused"⟩
  else if st.shouldStop then ⟨true, "stopping"⟩
  else ⟨true, "running"⟩

inductive HttpMethod where
  | get
  | post
deriving DecidableEq

inductive Dispatched where
  | handled (r : ApiResponse)
  | notFound
deriving DecidableEq

/- The app's route table: exactly two routes are registered
(decorators at lines 931 and 953).  Any other request is a 404 and
touches no state. -/

def dispatch (path : String) (m : HttpMethod) (st : CtrlState) :
    Dispatched × CtrlState :=
  if path == "/start-scraping" && m == HttpMethod.post then
    let r := start_scraping_api st
    (Dispatched.handled r.1, r.2.1)
  else if path == "/scraping-status" && m == HttpMethod.get then
    (Dispatched.handled (scraping_status_api st), st)
  else (Dispatched.notFound, st)

/- Process-wide event model for the at-most-one-run invariant: HTTP
start requests, status requests, and a live worker thread finishing. -/

inductive CtrlEvent where
  | startReq
  | statusReq
  | workerExits

def ctrlStep (st : CtrlState) (e : CtrlEvent) : CtrlState :=
  match e with
  | CtrlEvent.startReq => (start_scraping_api st).2.1
  | CtrlEvent.statusReq => st
  | CtrlEvent.workerExits => { st with liveWorkers := st.liveWorkers - 1 }

/- Interpreter start state (lines 569-571): no flags set, no thread. -/

def ctrlInit : CtrlState :=
  { shouldPause := false, shouldStop := false, threadSpawned := false, liveWorkers := 0 }

def ctrlRun (evs : List CtrlEvent) : CtrlState :=
  evs.foldl ctrlStep ctrlInit

/-
Helper lemmas.
-/

theorem beq_comm_str (a b : String) : (a == b) = (b == a) := by
  by_cases h : a = b
  · subst h; rfl
  · have h1 : (a == b) = false := by simp [h]
    have h2 : (b == a) = false := by simp [Ne.symm h]
    rw [h1, h2]

theorem contains_iff_mem {l : List String} {a : String} :
    l.contains a = true ↔ a ∈ l :=
  List.elem_iff

theorem contains_append_single (l : List String) (a c : String) :
    (l ++ [a]).contains c = (c == a || l.contains c) := by
  induction l with
  | nil =>
    show List.elem c [a] = (c == a || false)
    rw [List.elem_cons]
    cases c == a <;> rfl
  | cons b t ih =>
    show List.elem c (b :: (t ++ [a])) = (c == a || List.elem c (b :: t))
    rw [List.elem_cons, List.elem_cons]
    cases hcb : c == b
    · exact ih
    · cases c == a <;> rfl

theorem statusTrace_recordSuccess (s : WState) (cid : String) (d : ItemData) :
    (recordSuccess s cid d).statusTrace = s.statusTrace := rfl

theorem statusTrace_recordFailure (s : WState) (cid : String) :
    (recordFailure s cid).statusTrace = s.statusTrace := rfl

theorem statusTrace_persistStep (i : Nat) (s : WState) :
    (persistStep i s).statusTrace = s.statusTrace ++ [i + 1] := by
  unfold persistStep
  split <;> rfl

theorem lastProc_persistStep (i : Nat) (s : WState) :
    (persistStep i s).lastProc = i + 1 := by
  unfold persistStep
  split <;> rfl

theorem lastProc_recordSuccess (s : WState) (cid : String) (d : ItemData) :
    (recordSuccess s cid d).lastProc = s.lastProc := rfl

theorem lastProc_recordFailure (s : WState) (cid : String) :
    (recordFailure s cid).lastProc = s.lastProc := rfl

theorem fetchTrace_persistStep (i : Nat) (s : WState) :
    (persistStep i s).fetchTrace = s.fetchTrace := by
  unfold persistStep
  split <;> rfl

theorem fetchTrace_recordSuccess (s : WState) (cid : String) (d : ItemData) :
    (recordSuccess s cid d).fetchTrace = s.fetchTrace ++ [cid] := rfl

theorem fetchTrace_recordFailure (s : WState) (cid : String) :
    (recordFailure s cid).fetchTrace = s.fetchTrace ++ [cid] := rfl

theorem memState_persistStep (i : Nat) (s : WState) (c : String) :
    memState (persistStep i s) c = memState s c := by
  unfold persistStep memState
  split <;> rfl

theorem memState_recordSuccess (s : WState) (cid c : String) (d : ItemData) :
    memState (recordSuccess s cid d) c = (cid == c || memState s c) := by
  unfold memState recordSuccess
  simp only [hasKey_aset, Bool.or_assoc]

theorem memState_recordFailure (s : WState) (cid c : String) :
    memState (recordFailure s cid) c = (cid == c || memState s c) := by
  unfold memState recordFailure
  simp only [contains_append_single, beq_comm_str c cid]
  cases cid == c <;> cases hasKey s.out c <;> cases s.failed.contains c <;> rfl

theorem mem_unionList {c : String} {a b : List String} (h : c ∈ a ∨ c ∈ b) :
    c ∈ unionList a b := by
  unfold unionList
  by_cases ha : c ∈ a
  · exact List.mem_append_left _ ha
  · rcases h with h | h
    · exact absurd h ha
    · refine List.mem_append_right _ (List.mem_filter.2 ⟨h, ?_⟩)
      have hfc : a.contains c = false := by
        cases hc : a.contains c
        · rfl
        · exact absurd (contains_iff_mem.1 hc) ha
      rw [hfc]
      rfl

theorem exists_lt_three {P : Nat → Prop} :
    (∃ k, k < 3 ∧ P k) ↔ P 0 ∨ P 1 ∨ P 2 := by
  constructor
  · rintro ⟨k, hk, h⟩
    interval_cases k <;> tauto
  · rintro (h | h | h)
    · exact ⟨0, by omega, h⟩
    · exact ⟨1, by omega, h⟩
    · exact ⟨2, by omega, h⟩

theorem scraping_worker_state (oracle : Nat → FetchOutcome) (stopAt pauseStop : Nat → Bool)
    (cids : List String) (out0 : List (String × ItemData)) (failed0 : List String)
    (startIdx succ0 : Nat) (sts : Bool) :
    (scraping_worker oracle stopAt pauseStop cids out0 failed0 startIdx succ0 sts).state
      = (workerLoop oracle stopAt pauseStop cids startIdx (cids.length - startIdx)
          (initWState out0 failed0 startIdx succ0 sts)).1 := rfl

theorem scraping_worker_loopExit (oracle : Nat → FetchOutcome) (stopAt pauseStop : Nat → Bool)
    (cids : List String) (out0 : List (String × ItemData)) (failed0 : List String)
    (startIdx succ0 : Nat) (sts : Bool) :
    (scraping_worker oracle stopAt pauseStop cids out0 failed0 startIdx succ0 sts).loopExit
      = (workerLoop oracle stopAt pauseStop cids startIdx (cids.length - startIdx)
          (initWState out0 failed0 startIdx succ0 sts)).2 := rfl

theorem trace_step_bound {t : List Nat} {i : Nat} (hb : ∀ x ∈ t, x ≤ i)
    (hp : t.Pairwise (· ≤ ·)) :
    (∀ x ∈ t ++ [i + 1], x ≤ i + 1) ∧ (t ++ [i + 1]).Pairwise (· ≤ ·) := by
  constructor
  · intro x hx
    rcases List.mem_append.1 hx with h | h
    · exact le_trans (hb x h) (by omega)
    · rw [List.mem_singleton.1 h]
  · refine List.pairwise_append.2 ⟨hp, by simp, ?_⟩
    intro a ha b hbm
    rw [List.mem_singleton.1 hbm]
    exact le_trans (hb a ha) (by omega)

/- Every persisted `last_processed` checkpoint is a non-decreasing
sequence: the loop at index `i` only ever appends `i + 1`, and `i` only
grows. -/

theorem workerLoop_trace_mono (oracle : Nat → FetchOutcome) (stopAt pauseStop : Nat → Bool)
    (cids : List String) :
    ∀ fuel i (s : WState), (∀ x ∈ s.statusTrace, x ≤ i) →
      s.statusTrace.Pairwise (· ≤ ·) →
      (workerLoop oracle stopAt pauseStop cids i fuel s).1.statusTrace.Pairwise (· ≤ ·) := by
  intro fuel
  induction fuel with
  | zero => intro i s _ hp; exact hp
  | succ n ih =>
    intro i s hb hp
    simp only [workerLoop]
    by_cases hstop : stopAt i
    · simp only [hstop, if_pos]; exact hp
    · simp only [hstop, Bool.false_eq_true, if_neg, if_false]
      by_cases hpause : pauseStop i
      · simp only [hpause, if_pos]; exact hp
      · simp only [hpause, Bool.false_eq_true, if_neg, if_false]
        by_cases hmem : memState s (cids.getD i "")
        · simp only [hmem, if_pos]
          exact ih (i + 1) s (fun x hx => le_trans (hb x hx) (by omega)) hp
        · simp only [hmem, Bool.false_eq_true, if_neg, if_false]
          cases horc : oracle i with
          | fatal => exact hp
          | success d =>
            refine ih (i + 1) _ ?_ ?_
            · rw [statusTrace_persistStep, statusTrace_recordSuccess]
              exact (trace_step_bound hb hp).1
            · rw [statusTrace_persistStep, statusTrace_recordSuccess]
              exact (trace_step_bound hb hp).2
          | failure =>
            refine ih (i + 1) _ ?_ ?_
            · rw [statusTrace_persistStep, statusTrace_recordFailure]
              exact (trace_step_bound hb hp).1
            · rw [statusTrace_persistStep, statusTrace_recordFailure]
              exact (trace_step_bound hb hp).2

/- If every upcoming identifier is fresh (not yet in `output_data` or
`not_scraped`) and pairwise distinct, a naturally-completing loop
attempts every item, persists `i + 1` after each, and ends with
`last_processed` equal to the end of the range. -/

theorem workerLoop_no_skip (oracle : Nat → FetchOutcome) (stopAt pauseStop : Nat → Bool)
    (cids : List String) :
    ∀ fuel i (s : WState), (cids.drop i).Nodup → i + fuel = cids.length →
      (∀ c ∈ cids.drop i, memState s c = false) →
      (workerLoop oracle stopAt pauseStop cids i fuel s).2 = LoopExit.natural →
      (workerLoop oracle stopAt pauseStop cids i fuel s).1.statusTrace
          = s.statusTrace ++ List.range' (i + 1) fuel ∧
      (workerLoop oracle stopAt pauseStop cids i fuel s).1.lastProc
          = (if fuel = 0 then s.lastProc else i + fuel) := by
  intro fuel
  induction fuel with
  | zero => intro i s _ _ _ _; simp [workerLoop]
  | succ n ih =>
    intro i s hnd hlen hfresh hnat
    have hi : i < cids.length := by omega
    have hdrop : cids.drop i = cids[i] :: cids.drop (i + 1) :=
      List.drop_eq_getElem_cons hi
    have hgetD : cids.getD i "" = cids[i] := List.getD_eq_getElem cids "" hi
    simp only [workerLoop] at hnat ⊢
    by_cases hstop : stopAt i
    · simp only [hstop, if_pos] at hnat; cases hnat
    · simp only [hstop, Bool.false_eq_true, if_neg, if_false] at hnat ⊢
      by_cases hpause : pauseStop i
      · simp only [hpause, if_pos] at hnat; cases hnat
      · simp only [hpause, Bool.false_eq_true, if_neg, if_false] at hnat ⊢
        have hheadfresh : memState s (cids.getD i "") = false := by
          rw [hgetD]
          exact hfresh _ (by rw [hdrop]; exact List.mem_cons_self _ _)
        simp only [hheadfresh, Bool.false_eq_true, if_neg, if_false] at hnat ⊢
        have hndtail : (cids.drop (i + 1)).Nodup := by
          rw [hdrop] at hnd
          exact (List.nodup_cons.1 hnd).2
        have hheadnotin : cids[i] ∉ cids.drop (i + 1) := by
          rw [hdrop] at hnd
          exact (List.nodup_cons.1 hnd).1
        cases horc : oracle i with
        | fatal => rw [horc] at hnat; cases hnat
        | success d =>
          rw [horc] at hnat
          have hfresh' : ∀ c ∈ cids.drop (i + 1),
              memState (persistStep i (recordSuccess s (cids.getD i "") d)) c = false := by
            intro c hc
            rw [memState_persistStep, memState_recordSuccess]
            have h1 : memState s c = false :=
              hfresh c (by rw [hdrop]; exact List.mem_cons_of_mem _ hc)
            have h2 : (cids.getD i "" == c) = false := by
              rw [hgetD]
              refine beq_eq_false_iff_ne.2 ?_
              intro hEq
              exact hheadnotin (hEq ▸ hc)
            rw [h1, h2]
            rfl
          obtain ⟨ht, hl⟩ := ih (i + 1) _ hndtail (by omega) hfresh' hnat
          constructor
          · rw [ht, statusTrace_persistStep, statusTrace_recordSuccess]
            rw [List.append_assoc]
            congr 1
          · rw [hl]
            by_cases hn : n = 0
            · subst hn
              rw [if_pos rfl, lastProc_persistStep, if_neg (by omega)]
            · rw [if_neg hn, if_neg (by omega)]
              omega
        | failure =>
          rw [horc] at hnat
          have hfresh' : ∀ c ∈ cids.drop (i + 1),
              memState (persistStep i (recordFailure s (cids.getD i ""))) c = false := by
            intro c hc
            rw [memState_persistStep, memState_recordFailure]
            have h1 : memState s c = false :=
              hfresh c (by rw [hdrop]; exact List.mem_cons_of_mem _ hc)
            have h2 : (cids.getD i "" == c) = false := by
              rw [hgetD]
              refine beq_eq_false_iff_ne.2 ?_
              intro hEq
              exact hheadnotin (hEq ▸ hc)
            rw [h1, h2]
            rfl
          obtain ⟨ht, hl⟩ := ih (i + 1) _ hndtail (by omega) hfresh' hnat
          constructor
          · rw [ht, statusTrace_persistStep, statusTrace_recordFailure]
            rw [List.append_assoc]
            congr 1
          · rw [hl]
            by_cases hn : n = 0
            · subst hn
              rw [if_pos rfl, lastProc_persistStep, if_neg (by omega)]
            · rw [if_neg hn, if_neg (by omega)]
              omega

/- Fetch-trace invariant: every cid handed to `process_cid` was fresh
at that moment and is recorded immediately afterwards, so the trace has
no duplicates and never contains an identifier that was already in
`output_data` or `not_scraped`. -/

theorem workerLoop_fetch_inv (oracle : Nat → FetchOutcome) (stopAt pauseStop : Nat → Bool)
    (cids : List String) :
    ∀ fuel i (s : WState), s.fetchTrace.Nodup →
      (∀ c ∈ s.fetchTrace, memState s c = true) →
      ((workerLoop oracle stopAt pauseStop cids i fuel s).1.fetchTrace.Nodup ∧
       ∀ c, memState s c = true →
         c ∈ (workerLoop oracle stopAt pauseStop cids i fuel s).1.fetchTrace →
         c ∈ s.fetchTrace) := by
  intro fuel
  induction fuel with
  | zero => intro i s hnd _; exact ⟨hnd, fun c _ hc => hc⟩
  | succ n ih =>
    intro i s hnd hrec
    simp only [workerLoop]
    by_cases hstop : stopAt i
    · simp only [hstop, if_pos]
      exact ⟨hnd, fun c _ hc => hc⟩
    · simp only [hstop, Bool.false_eq_true, if_neg, if_false]
      by_cases hpause : pauseStop i
      · simp only [hpause, if_pos]
        exact ⟨hnd, fun c _ hc => hc⟩
      · simp only [hpause, Bool.false_eq_true, if_neg, if_false]
        by_cases hmem : memState s (cids.getD i "")
        · simp only [hmem, if_pos]
          exact ih (i + 1) s hnd hrec
        · simp only [hmem, Bool.false_eq_true, if_neg, if_false]
          have hcidnotin : cids.getD i "" ∉ s.fetchTrace := by
            intro hin
            rw [hrec _ hin] at hmem
            exact hmem rfl
          have hnd' : (s.fetchTrace ++ [cids.getD i ""]).Nodup := by
            rw [List.nodup_append]
            exact ⟨hnd, List.nodup_singleton _,
              fun a ha hb => hcidnotin ((List.mem_singleton.1 hb) ▸ ha)⟩
          cases horc : oracle i with
          | fatal =>
            refine ⟨hnd', ?_⟩
            intro c hc hin
            rcases List.mem_append.1 hin with h | h
            · exact h
            · rw [List.mem_singleton.1 h] at hc
              rw [hc] at hmem
              exact absurd rfl hmem
          | success d =>
            have hrec' : ∀ c ∈ (persistStep i (recordSuccess s (cids.getD i "") d)).fetchTrace,
                memState (persistStep i (recordSuccess s (cids.getD i "") d)) c = true := by
              intro c hc
              rw [fetchTrace_persistStep, fetchTrace_recordSuccess] at hc
              rw [memState_persistStep, memState_recordSuccess]
              rcases List.mem_append.1 hc with h | h
              · rw [hrec c h]
                cases cids.getD i "" == c <;> rfl
              · rw [List.mem_singleton.1 h]
                rw [beq_self_eq_true]
                rfl
            have hnd'' : (persistStep i (recordSuccess s (cids.getD i "") d)).fetchTrace.Nodup := by
              rw [fetchTrace_persistStep, fetchTrace_recordSuccess]
              exact hnd'
            obtain ⟨ihnd, ihmem⟩ := ih (i + 1) _ hnd'' hrec'
            refine ⟨ihnd, ?_⟩
            intro c hc hin
            have hc' : memState (persistStep i (recordSuccess s (cids.getD i "") d)) c = true := by
              rw [memState_persistStep, memState_recordSuccess, hc]
              cases cids.getD i "" == c <;> rfl
            have := ihmem c hc' hin
            rw [fetchTrace_persistStep, fetchTrace_recordSuccess] at this
            rcases List.mem_append.1 this with h | h
            · exact h
            · rw [List.mem_singleton.1 h] at hc
              rw [hc] at hmem
              exact absurd rfl hmem
          | failure =>
            have hrec' : ∀ c ∈ (persistStep i (recordFailure s (cids.getD i ""))).fetchTrace,
                memState (persistStep i (recordFailure s (cids.getD i ""))) c = true := by
              intro c hc
              rw [fetchTrace_persistStep, fetchTrace_recordFailure] at hc
              rw [memState_persistStep, memState_recordFailure]
              rcases List.mem_append.1 hc with h | h
              · rw [hrec c h]
                cases cids.getD i "" == c <;> rfl
              · rw [List.mem_singleton.1 h]
                rw [beq_self_eq_true]
                rfl
            have hnd'' : (persistStep i (recordFailure s (cids.getD i ""))).fetchTrace.Nodup := by
              rw [fetchTrace_persistStep, fetchTrace_recordFailure]
              exact hnd'
            obtain ⟨ihnd, ihmem⟩ := ih (i + 1) _ hnd'' hrec'
            refine ⟨ihnd, ?_⟩
            intro c hc hin
            have hc' : memState (persistStep i (recordFailure s (cids.getD i ""))) c = true := by
              rw [memState_persistStep, memState_recordFailure, hc]
              cases cids.getD i "" == c <;> rfl
            have := ihmem c hc' hin
            rw [fetchTrace_persistStep, fetchTrace_recordFailure] at this
            rcases List.mem_append.1 this with h | h
            · exact h
            · rw [List.mem_singleton.1 h] at hc
              rw [hc] at hmem
              exact absurd rfl hmem

/- Sleeps recorded by the retry loop are all the constant delay. -/

theorem process_cidGo_sleeps (att : Nat → Attempt) (d : Nat) :
    ∀ fuel r sl, d ∈ (process_cidGo att r fuel sl).sleeps →
      d ∈ sl ∨ d = CAPTCHA_RETRY_DELAY := by
  intro fuel
  induction fuel with
  | zero => intro r sl h; exact Or.inl h
  | succ n ih =>
    intro r sl h
    simp only [process_cidGo] at h
    cases hA : att r with
    | ok dd => rw [hA] at h; exact Or.inl h
    | fail e =>
      rw [hA] at h
      dsimp only at h
      by_cases hf : n > 0
      · rw [if_pos hf] at h
        rcases ih (r + 1) (sl ++ [CAPTCHA_RETRY_DELAY]) h with h' | h'
        · rcases List.mem_append.1 h' with h'' | h''
          · exact Or.inl h''
          · exact Or.inr (List.mem_singleton.1 h'')
        · exact Or.inr h'
      · rw [if_neg hf] at h; exact Or.inl h

/- Control-state invariant for the at-most-one-run property. -/

def CtrlInv (st : CtrlState) : Prop :=
  st.liveWorkers ≤ 1 ∧ (st.threadSpawned = false → st.liveWorkers = 0)

theorem ctrlStep_inv (st : CtrlState) (e : CtrlEvent) (h : CtrlInv st) :
    CtrlInv (ctrlStep st e) := by
  obtain ⟨h1, h2⟩ := h
  cases e with
  | statusReq => exact ⟨h1, h2⟩
  | workerExits =>
    refine ⟨by show st.liveWorkers - 1 ≤ 1; omega, ?_⟩
    intro hf
    have := h2 hf
    show st.liveWorkers - 1 = 0
    omega
  | startReq =>
    show CtrlInv (start_scraping_api st).2.1
    unfold start_scraping_api
    by_cases hg : (st.threadSpawned && st.liveWorkers != 0) = true
    · rw [if_pos hg]; exact ⟨h1, h2⟩
    · rw [if_neg hg]
      have hz : st.liveWorkers = 0 := by
        cases hsp : st.threadSpawned
        · exact h2 hsp
        · rw [hsp] at hg
          simp only [Bool.true_and] at hg
          have : ¬ st.liveWorkers ≠ 0 := fun hne => hg (bne_iff_ne.2 hne)
          omega
      exact ⟨by simp [hz], by intro hf; cases hf⟩

theorem ctrlRun_inv (evs : List CtrlEvent) : CtrlInv (ctrlRun evs) := by
  have hinit : CtrlInv ctrlInit := ⟨by simp [ctrlInit], fun _ => rfl⟩
  suffices h : ∀ st, CtrlInv st → CtrlInv (evs.foldl ctrlStep st) from h _ hinit
  induction evs with
  | nil => intro st hst; exact hst
  | cons e t iht =>
    intro st hst
    exact iht _ (ctrlStep_inv st e hst)

theorem forall_lt_three {P : Nat → Prop} :
    (∀ k, k < 3 → P k) ↔ P 0 ∧ P 1 ∧ P 2 := by
  constructor
  · intro h
    exact ⟨h 0 (by omega), h 1 (by omega), h 2 (by omega)⟩
  · rintro ⟨h0, h1, h2⟩ k hk
    interval_cases k <;> assumption

/-
Claim theorems.
-/

/-- C1 counterexample: the running Flask app registers no stop route.
At an active controller state, a `POST /stop-scraping` invocation is a
404 that neither returns `{status: success}` nor sets the stopping
flag - so the claimed stop operation does not behave as stated (it does
not exist). -/
theorem stop_route_missing_cex :
    dispatch "/stop-scraping" HttpMethod.post ⟨false, false, true, 1⟩
      = (Dispatched.notFound, ⟨false, false, true, 1⟩) ∧
    (dispatch "/stop-scraping" HttpMethod.post ⟨false, false, true, 1⟩).2.shouldStop
      = false := by
  decide

/-- C1 (amended): the Control Surface exposes no stop operation.  Its
only registered routes are `POST /start-scraping` and
`GET /scraping-status`; no HTTP request ever sets the stopping flag
(start clears it, status is read-only), and any request outside the two
routes is a 404 that leaves the control state unchanged. -/
theorem control_surface_no_stop :
    (∀ (path : String) (m : HttpMethod) (st : CtrlState),
      (dispatch path m st).2.shouldStop = true → st.shouldStop = true) ∧
    (∀ (path : String) (m : HttpMethod) (st : CtrlState),
      (path == "/start-scraping" && m == HttpMethod.post) = false →
      (path == "/scraping-status" && m == HttpMethod.get) = false →
      dispatch path m st = (Dispatched.notFound, st)) := by
  constructor
  · intro path m st h
    unfold dispatch at h
    by_cases h1 : (path == "/start-scraping" && m == HttpMethod.post) = true
    · rw [if_pos h1] at h
      unfold start_scraping_api at h
      by_cases hg : (st.threadSpawned && st.liveWorkers != 0) = true
      · rw [if_pos hg] at h
        exact h
      · rw [if_neg hg] at h
        exact absurd h Bool.false_ne_true
    · rw [if_neg h1] at h
      by_cases h2 : (path == "/scraping-status" && m == HttpMethod.get) = true
      · rw [if_pos h2] at h
        exact h
      · rw [if_neg h2] at h
        exact h
  · intro path m st h1 h2
    unfold dispatch
    rw [if_neg (by rw [h1]; exact Bool.false_ne_true),
        if_neg (by rw [h2]; exact Bool.false_ne_true)]

/-- C1 witness: the amended theorem applied at a status request on a
stopping state and at a stop request on the initial state. -/
theorem control_surface_no_stop_witness :
    (⟨false, true, true, 1⟩ : CtrlState).shouldStop = true ∧
    dispatch "/stop-scraping" HttpMethod.post ctrlInit = (Dispatched.notFound, ctrlInit) :=
  ⟨control_surface_no_stop.1 "/scraping-status" HttpMethod.get ⟨false, true, true, 1⟩
      (by decide),
   control_surface_no_stop.2 "/stop-scraping" HttpMethod.post ctrlInit
      (by decide) (by decide)⟩

/-- C2 counterexample: work list `["A"]` with `"A"` already in the
reconciled ResultSet.  The single item is iterated but skipped via the
`continue` at line 875, which bypasses the status update; the run
completes naturally with no checkpoint persisted and `last_processed`
still 0, not the input length 1. -/
theorem checkpoint_skip_cex :
    (scraping_worker (fun _ => FetchOutcome.failure) (fun _ => false) (fun _ => false)
        ["A"] [("A", [])] [] 0 0 true).loopExit = LoopExit.natural ∧
    (scraping_worker (fun _ => FetchOutcome.failure) (fun _ => false) (fun _ => false)
        ["A"] [("A", [])] [] 0 0 true).state.statusTrace = [] ∧
    ¬ ((scraping_worker (fun _ => FetchOutcome.failure) (fun _ => false) (fun _ => false)
        ["A"] [("A", [])] [] 0 0 true).state.lastProc
          = (["A"] : List String).length) := by
  decide

/-- C2 (amended): `last_processed_index` is non-decreasing over every
run, and is persisted after every fetched or failed item; but an item
skipped as already processed neither persists nor advances it, so at
natural completion it equals the input length only when no reached item
was skipped - e.g. for a fresh run (empty ResultSet and FailedSet,
resume index 0) over a duplicate-free list, where the persisted
checkpoints are exactly 1, 2, ..., n. -/
theorem checkpoint_monotone_amended :
    (∀ (oracle : Nat → FetchOutcome) (stopAt pauseStop : Nat → Bool) (cids : List String)
       (out0 : List (String × ItemData)) (failed0 : List String)
       (startIdx succ0 : Nat) (sts : Bool),
      ((scraping_worker oracle stopAt pauseStop cids out0 failed0 startIdx succ0
          sts).state.statusTrace).Pairwise (· ≤ ·)) ∧
    (∀ (oracle : Nat → FetchOutcome) (stopAt pauseStop : Nat → Bool)
       (cids : List String) (succ0 : Nat),
      cids.Nodup →
      (scraping_worker oracle stopAt pauseStop cids [] [] 0 succ0 true).loopExit
          = LoopExit.natural →
      (scraping_worker oracle stopAt pauseStop cids [] [] 0 succ0 true).state.statusTrace
          = List.range' 1 cids.length ∧
      (scraping_worker oracle stopAt pauseStop cids [] [] 0 succ0 true).state.lastProc
          = cids.length) := by
  constructor
  · intro oracle stopAt pauseStop cids out0 failed0 startIdx succ0 sts
    rw [scraping_worker_state]
    apply workerLoop_trace_mono
    · intro x hx
      unfold initWState at hx
      cases sts
      · simp only [Bool.false_eq_true, if_false, List.mem_singleton] at hx
        rw [hx]
      · simp only [if_true] at hx
        exact absurd hx (List.not_mem_nil x)
    · unfold initWState
      cases sts
      · simp only [Bool.false_eq_true, if_false]
        exact List.pairwise_singleton _ _
      · simp only [if_true]
        exact List.Pairwise.nil
  · intro oracle stopAt pauseStop cids succ0 hnd hnat
    rw [scraping_worker_loopExit] at hnat
    rw [scraping_worker_state]
    obtain ⟨ht, hl⟩ := workerLoop_no_skip oracle stopAt pauseStop cids (cids.length - 0) 0
      (initWState [] [] 0 succ0 true)
      (by simpa using hnd)
      (by omega)
      (fun c _ => rfl)
      hnat
    constructor
    · rw [ht]
      show ([] : List Nat) ++ List.range' 1 (cids.length - 0) = List.range' 1 cids.length
      rw [List.nil_append, Nat.sub_zero]
    · rw [hl]
      by_cases h0 : cids.length - 0 = 0
      · rw [if_pos h0]
        show (0 : Nat) = cids.length
        omega
      · rw [if_neg h0]
        omega

/-- C2 witness: part 1 at a resumed skip run, part 2 at a fresh
two-item run whose checkpoints are `[1, 2]`. -/
theorem checkpoint_monotone_amended_witness :
    ((scraping_worker (fun _ => FetchOutcome.failure) (fun _ => false) (fun _ => false)
        ["A"] [("A", [])] [] 0 0 true).state.statusTrace).Pairwise (· ≤ ·) ∧
    (scraping_worker (fun _ => FetchOutcome.success []) (fun _ => false) (fun _ => false)
        ["A", "B"] [] [] 0 0 true).state.statusTrace = List.range' 1 2 ∧
    (scraping_worker (fun _ => FetchOutcome.success []) (fun _ => false) (fun _ => false)
        ["A", "B"] [] [] 0 0 true).state.lastProc = 2 :=
  ⟨checkpoint_monotone_amended.1 (fun _ => FetchOutcome.failure) (fun _ => false)
      (fun _ => false) ["A"] [("A", [])] [] 0 0 true,
   (checkpoint_monotone_amended.2 (fun _ => FetchOutcome.success []) (fun _ => false)
      (fun _ => false) ["A", "B"] 0 (by decide) (by decide)).1,
   (checkpoint_monotone_amended.2 (fun _ => FetchOutcome.success []) (fun _ => false)
      (fun _ => false) ["A", "B"] 0 (by decide) (by decide)).2⟩

/-- C3: the Job Runner never hands the Fetcher an identifier that is
already present in the in-memory ResultSet or FailedSet when its index
is reached: identifiers present at startup (resumed runs) are never
fetched at all, and no identifier is fetched twice within one run
(duplicate-input tolerance), for every work list, resume point and
signal schedule. -/
theorem skip_already_processed (oracle : Nat → FetchOutcome) (stopAt pauseStop : Nat → Bool)
    (cids : List String) (out0 : List (String × ItemData)) (failed0 : List String)
    (startIdx succ0 : Nat) (sts : Bool) :
    ((scraping_worker oracle stopAt pauseStop cids out0 failed0 startIdx succ0
        sts).state.fetchTrace.Nodup) ∧
    (∀ c : String, (hasKey out0 c || failed0.contains c) = true →
      c ∉ (scraping_worker oracle stopAt pauseStop cids out0 failed0 startIdx succ0
        sts).state.fetchTrace) := by
  have h := workerLoop_fetch_inv oracle stopAt pauseStop cids (cids.length - startIdx)
    startIdx (initWState out0 failed0 startIdx succ0 sts) List.nodup_nil
    (fun c hc => absurd hc (List.not_mem_nil c))
  rw [scraping_worker_state]
  refine ⟨h.1, ?_⟩
  intro c hc hcin
  exact absurd (h.2 c hc hcin) (List.not_mem_nil c)

/-- C3 witness: a resumed run over `["B", "A", "A"]` with `"B"` already
in the FailedSet: `"B"` is never fetched, and the fetch trace has no
duplicate even though `"A"` occurs twice in the input. -/
theorem skip_already_processed_witness :
    (hasKey ([] : List (String × ItemData)) "B" || ["B"].contains "B") = true ∧
    "B" ∉ (scraping_worker (fun _ => FetchOutcome.success []) (fun _ => false)
        (fun _ => false) ["B", "A", "A"] [] ["B"] 0 0 true).state.fetchTrace ∧
    (scraping_worker (fun _ => FetchOutcome.success []) (fun _ => false) (fun _ => false)
        ["B", "A", "A"] [] ["B"] 0 0 true).state.fetchTrace.Nodup :=
  ⟨by decide,
   (skip_already_processed (fun _ => FetchOutcome.success []) (fun _ => false)
      (fun _ => false) ["B", "A", "A"] [] ["B"] 0 0 true).2 "B" (by decide),
   (skip_already_processed (fun _ => FetchOutcome.success []) (fun _ => false)
      (fun _ => false) ["B", "A", "A"] [] ["B"] 0 0 true).1⟩

/-- C4: the Retry Policy returns an ItemResult exactly when one of the
at most MAX_RETRIES (3) attempts succeeds, and raises to the Job Runner
exactly when all MAX_RETRIES attempts fail - whatever exceptions the
attempts produce, each is treated alike as retryable while budget
remains. -/
theorem retry_policy_contract (att : Nat → Attempt) :
    ((∃ d, (process_cid att).result = PCResult.ok d) ↔
      (∃ k, k < MAX_RETRIES ∧ ∃ d, att k = Attempt.ok d)) ∧
    ((∃ e, (process_cid att).result = PCResult.raised e) ↔
      (∀ k, k < MAX_RETRIES → ∃ e, att k = Attempt.fail e)) := by
  have h3 : MAX_RETRIES = 3 := rfl
  rw [h3, exists_lt_three, forall_lt_three]
  cases h0 : att 0 with
  | ok d0 =>
    have hres : (process_cid att).result = PCResult.ok d0 := by
      simp [process_cid, process_cidGo, h0]
    rw [hres]
    constructor
    · constructor
      · intro _
        exact Or.inl ⟨d0, rfl⟩
      · intro _
        exact ⟨d0, rfl⟩
    · constructor
      · rintro ⟨e, he⟩
        cases he
      · rintro ⟨⟨e0, he0⟩, _⟩
        cases he0
  | fail e0 =>
    cases h1 : att 1 with
    | ok d1 =>
      have hres : (process_cid att).result = PCResult.ok d1 := by
        simp [process_cid, process_cidGo, h0, h1]
      rw [hres]
      constructor
      · constructor
        · intro _
          exact Or.inr (Or.inl ⟨d1, rfl⟩)
        · intro _
          exact ⟨d1, rfl⟩
      · constructor
        · rintro ⟨e, he⟩
          cases he
        · rintro ⟨_, ⟨e1, he1⟩, _⟩
          cases he1
    | fail e1 =>
      cases h2 : att 2 with
      | ok d2 =>
        have hres : (process_cid att).result = PCResult.ok d2 := by
          simp [process_cid, process_cidGo, h0, h1, h2]
        rw [hres]
        constructor
        · constructor
          · intro _
            exact Or.inr (Or.inr ⟨d2, rfl⟩)
          · intro _
            exact ⟨d2, rfl⟩
        · constructor
          · rintro ⟨e, he⟩
            cases he
          · rintro ⟨_, _, ⟨e2, he2⟩⟩
            cases he2
      | fail e2 =>
        have hres : (process_cid att).result = PCResult.raised e2 := by
          simp [process_cid, process_cidGo, h0, h1, h2]
        rw [hres]
        constructor
        · constructor
          · rintro ⟨d, hd⟩
            cases hd
          · rintro (⟨d, hd⟩ | ⟨d, hd⟩ | ⟨d, hd⟩) <;> cases hd
        · constructor
          · intro _
            exact ⟨⟨e0, rfl⟩, ⟨e1, rfl⟩, ⟨e2, rfl⟩⟩
          · intro _
            exact ⟨e2, rfl⟩

/-- C5 counterexample: with every attempt failing, the two delays
actually slept between the three attempts are both
CAPTCHA_RETRY_DELAY = 5 seconds; the delay after the first failure is
not less than the delay after the second, so the delay does not
increase with attempt number. -/
theorem backoff_not_increasing_cex :
    (process_cid (fun _ => Attempt.fail "CAPTCHA failed")).sleeps
        = [CAPTCHA_RETRY_DELAY, CAPTCHA_RETRY_DELAY] ∧
    ¬ ((process_cid (fun _ => Attempt.fail "CAPTCHA failed")).sleeps.getD 0 0
        < (process_cid (fun _ => Attempt.fail "CAPTCHA failed")).sleeps.getD 1 0) := by
  decide

/-- C5 (amended): every delay the retry loop sleeps between consecutive
failed attempts is the constant CAPTCHA_RETRY_DELAY (5 seconds); the
backoff is flat, not increasing (the unused RETRY_DELAY constant
notwithstanding). -/
theorem backoff_constant_delay (att : Nat → Attempt) (d : Nat)
    (h : d ∈ (process_cid att).sleeps) : d = CAPTCHA_RETRY_DELAY := by
  rcases process_cidGo_sleeps att d MAX_RETRIES 0 [] h with h' | h'
  · exact absurd h' (List.not_mem_nil d)
  · exact h'

/-- C5 witness: the amended theorem applied to an all-failing run. -/
theorem backoff_constant_delay_witness :
    CAPTCHA_RETRY_DELAY ∈ (process_cid (fun _ => Attempt.fail "x")).sleeps ∧
    (5 : Nat) = CAPTCHA_RETRY_DELAY :=
  ⟨by decide, backoff_constant_delay (fun _ => Attempt.fail "x") 5 (by decide)⟩

/-- C6: under every sequence of control events at most one worker
thread is alive process-wide, and a start request while a run is active
returns the error response, leaves the control state unchanged, and
spawns no second worker. -/
theorem at_most_one_worker :
    (∀ evs : List CtrlEvent, (ctrlRun evs).liveWorkers ≤ 1) ∧
    (∀ st : CtrlState, st.threadSpawned = true → st.liveWorkers ≠ 0 →
      start_scraping_api st = (⟨false, "error"⟩, st, false)) := by
  constructor
  · intro evs
    exact (ctrlRun_inv evs).1
  · intro st h1 h2
    have hg : (st.threadSpawned && st.liveWorkers != 0) = true := by
      rw [h1, Bool.true_and]
      exact bne_iff_ne.2 h2
    unfold start_scraping_api
    rw [if_pos hg]

/-- C6 witness: two consecutive start requests leave at most one live
worker, and a start at an active state is rejected with no change. -/
theorem at_most_one_worker_witness :
    (ctrlRun [CtrlEvent.startReq, CtrlEvent.startReq]).liveWorkers ≤ 1 ∧
    start_scraping_api ⟨false, false, true, 1⟩
      = (⟨false, "error"⟩, ⟨false, false, true, 1⟩, false) :=
  ⟨at_most_one_worker.1 [CtrlEvent.startReq, CtrlEvent.startReq],
   at_most_one_worker.2 ⟨false, false, true, 1⟩ rfl (by decide)⟩

/-- C7 counterexample: the on-disk failed store holds "X" but reading
it back fails; `save_data` then overwrites the file with the in-memory
set alone, so the previously persisted "X" is lost - contradicting the
claim's "regardless of whether the on-disk file could be read back". -/
theorem failed_union_read_failure_cex :
    save_failed ["Y"] (FailedDisk.corrupt ["X"]) = FailedDisk.readable ["Y"] ∧
    "X" ∈ diskIds (FailedDisk.corrupt ["X"]) ∧
    ¬ "X" ∈ diskIds (save_failed ["Y"] (FailedDisk.corrupt ["X"])) := by
  decide

/-- C7 (amended): on a flush with a non-empty in-memory FailedSet, the
set written to disk contains the previous on-disk identifiers union the
in-memory ones provided the on-disk file was absent or readable; if the
read back fails, only the in-memory set is written and previously
persisted failures are lost; with an empty in-memory set nothing is
written and the disk is unchanged. -/
theorem failed_union_amended :
    (∀ (mem s : List String) (c : String), mem ≠ [] → c ∈ s ∨ c ∈ mem →
      c ∈ diskIds (save_failed mem (FailedDisk.readable s))) ∧
    (∀ mem s : List String, mem ≠ [] →
      diskIds (save_failed mem (FailedDisk.corrupt s)) = mem) ∧
    (∀ (mem : List String) (disk : FailedDisk), mem = [] →
      save_failed mem disk = disk) := by
  refine ⟨?_, ?_, ?_⟩
  · intro mem s c hne hc
    have hie : ¬ (mem.isEmpty = true) := by
      rw [List.isEmpty_iff]
      exact hne
    unfold save_failed
    rw [if_neg hie]
    exact mem_unionList hc.symm
  · intro mem s hne
    have hie : ¬ (mem.isEmpty = true) := by
      rw [List.isEmpty_iff]
      exact hne
    unfold save_failed
    rw [if_neg hie]
    rfl
  · intro mem disk h
    subst h
    rfl

/-- C7 witness: the amended theorem applied at a readable store, a
corrupt store, and an empty in-memory set. -/
theorem failed_union_amended_witness :
    "X" ∈ diskIds (save_failed ["Y"] (FailedDisk.readable ["X"])) ∧
    diskIds (save_failed ["Y"] (FailedDisk.corrupt ["X"])) = ["Y"] ∧
    save_failed [] (FailedDisk.readable ["X"]) = FailedDisk.readable ["X"] :=
  ⟨failed_union_amended.1 ["Y"] ["X"] "X" (by decide) (Or.inl (by decide)),
   failed_union_amended.2.1 ["Y"] ["X"] (by decide),
   failed_union_amended.2.2 [] (FailedDisk.readable ["X"]) rfl⟩

/-- C8 (code bug): flushing ResultSet `{"A": {"Jan": 100, "Feb": 200}}`
writes the rows (A, Jan, 100), (A, Feb, 200); reloading them at startup
rebuilds `{"A": {"Month": "Feb", "Amount": 200}}`, not the original
mapping.  The reload iterates the saved columns (the code comment even
assumes months are stored as columns) while `save_data` writes one row
per (id, period, value) triple, so the round trip keeps only the last
row's month label and amount under the literal keys "Month" and
"Amount"; only the identifier keys survive. -/
theorem result_store_roundtrip_bug :
    reload_output (save_data_rows [("A", [("Jan", Val.num 100), ("Feb", Val.num 200)])])
      = [("A", [("Month", Val.str "Feb"), ("Amount", Val.num 200)])] ∧
    reload_output (save_data_rows [("A", [("Jan", Val.num 100), ("Feb", Val.num 200)])])
      ≠ [("A", [("Jan", Val.num 100), ("Feb", Val.num 200)])] := by
  decide

/-- C9 counterexample: an exception escaping the per-item loop on the
first item.  The browser is released (the `finally` block) but the
final flush is skipped, because the post-loop `save_data` at line 904
is inside the `try`, not in the `finally`. -/
theorem final_flush_exception_cex :
    (scraping_worker (fun _ => FetchOutcome.fatal) (fun _ => false) (fun _ => false)
        ["A"] [] [] 0 0 true).loopExit = LoopExit.fatalExit ∧
    (scraping_worker (fun _ => FetchOutcome.fatal) (fun _ => false) (fun _ => false)
        ["A"] [] [] 0 0 true).finalFlush = false ∧
    (scraping_worker (fun _ => FetchOutcome.fatal) (fun _ => false) (fun _ => false)
        ["A"] [] [] 0 0 true).browserReleased = true := by
  decide

/-- C9 (amended): the browser is released on every exit path of a run;
the final flush of ResultSet/FailedSet runs on natural completion and
on stop, but when an exception escapes the per-item loop the run
terminates through the error branch with no final flush. -/
theorem exit_path_flush_release (oracle : Nat → FetchOutcome) (stopAt pauseStop : Nat → Bool)
    (cids : List String) (out0 : List (String × ItemData)) (failed0 : List String)
    (startIdx succ0 : Nat) (sts : Bool) :
    (scraping_worker oracle stopAt pauseStop cids out0 failed0 startIdx succ0
        sts).browserReleased = true ∧
    ((scraping_worker oracle stopAt pauseStop cids out0 failed0 startIdx succ0
        sts).loopExit ≠ LoopExit.fatalExit →
      (scraping_worker oracle stopAt pauseStop cids out0 failed0 startIdx succ0
        sts).finalFlush = true) ∧
    ((scraping_worker oracle stopAt pauseStop cids out0 failed0 startIdx succ0
        sts).loopExit = LoopExit.fatalExit →
      (scraping_worker oracle stopAt pauseStop cids out0 failed0 startIdx succ0
        sts).finalFlush = false) := by
  refine ⟨rfl, ?_, ?_⟩
  · intro h
    rw [scraping_worker_loopExit] at h
    show (match (workerLoop oracle stopAt pauseStop cids startIdx
        (cids.length - startIdx) (initWState out0 failed0 startIdx succ0 sts)).2 with
      | LoopExit.fatalExit => false
      | _ => true) = true
    cases hE : (workerLoop oracle stopAt pauseStop cids startIdx
        (cids.length - startIdx) (initWState out0 failed0 startIdx succ0 sts)).2
    · rfl
    · rfl
    · exact absurd hE h
  · intro h
    rw [scraping_worker_loopExit] at h
    show (match (workerLoop oracle stopAt pauseStop cids startIdx
        (cids.length - startIdx) (initWState out0 failed0 startIdx succ0 sts)).2 with
      | LoopExit.fatalExit => false
      | _ => true) = false
    rw [h]

/-- C9 witness: the amended theorem at a completing run and at a run
with an escaping exception. -/
theorem exit_path_flush_release_witness :
    (scraping_worker (fun _ => FetchOutcome.success []) (fun _ => false) (fun _ => false)
        ["A"] [] [] 0 0 true).finalFlush = true ∧
    (scraping_worker (fun _ => FetchOutcome.fatal) (fun _ => false) (fun _ => false)
        ["B"] [] [] 0 0 true).finalFlush = false :=
  ⟨(exit_path_flush_release (fun _ => FetchOutcome.success []) (fun _ => false)
      (fun _ => false) ["A"] [] [] 0 0 true).2.1 (by decide),
   (exit_path_flush_release (fun _ => FetchOutcome.fatal) (fun _ => false)
      (fun _ => false) ["B"] [] [] 0 0 true).2.2 (by decide)⟩

/-- C10: for an empty work list the loop body never runs, the run
still performs the final flush, and the end-of-run success-rate report
divides the success count by the list length (zero) with no guard, so
the run ends in the top-level error branch instead of a clean natural
completion. -/
theorem empty_list_division_error (oracle : Nat → FetchOutcome) (stopAt pauseStop : Nat → Bool)
    (out0 : List (String × ItemData)) (failed0 : List String)
    (startIdx succ0 : Nat) (sts : Bool) :
    (scraping_worker oracle stopAt pauseStop [] out0 failed0 startIdx succ0 sts).outcome
        = RunOutcome.failedRun ∧
    (scraping_worker oracle stopAt pauseStop [] out0 failed0 startIdx succ0 sts).finalFlush
        = true ∧
    (scraping_worker oracle stopAt pauseStop [] out0 failed0 startIdx succ0 sts).loopExit
        = LoopExit.natural := by
  refine ⟨?_, ?_, ?_⟩ <;>
    simp [scraping_worker, List.length_nil, Nat.zero_sub, workerLoop]

end Scraper
